import Mathlib

/-!
# Account API client (`pkg/config`, `pkg/models`, `pkg/client/v1`)

A shallow embedding of the Go client for the account API and the proofs of its
request/response contract.

Conventions of the embedding

* A Go `string` that the client handles as text is a Lean `String`; the byte
  strings that `net/url` produces while unescaping a query are `List Nat`
  (one number below 256 per byte).
* `time.Duration` and `time.Time` are integers counting nanoseconds.
* A Go `(value, error)` result is a pair of options; `nil` is `none`.
* The standard library and the network are not part of the repository.  What
  the client needs from them is either written out after their documented
  behaviour (`context.WithTimeout`, `strings.Replace`, the query handling of
  `net/url`, `fmt.Sprint` on integers) or supplied by a `World`: the clock, the
  JSON codec, the transport, and of `net/url` the syntax check of `url.Parse`
  and the way scheme, host, path and fragment are printed back.
* Every operation returns, next to its Go result, the list of calls it made
  on the codec and the transport, in order.  Logging is left out: it has no
  influence on requests or results.
-/

namespace AccountApi

/-! ## pkg/config/config.go -/

/-- Go `time.Duration`: a count of nanoseconds. -/
abbrev Duration := Int

/-- Go `time.Time`, as nanoseconds on the clock of the `World`. -/
abbrev Time := Int

/-- Go `time.Second`. -/
def Second : Duration := 1000000000

/-- The package variable `DefaultAddress`. -/
def DefaultAddress : String := "http://localhost:8080"

/-- The package variable `DefaultReqTimeout = time.Duration(5) * time.Second`. -/
def DefaultReqTimeout : Duration := 5 * Second

/-- The struct `Config`. -/
structure Config where
  Address : String
  Timeout : Duration
  SkipVerify : Bool
  deriving DecidableEq, Repr

/-- The function `NewConfig`; `address` is a `*string`, `none` being `nil`. -/
def NewConfig (address : Option String) (timeout : Duration) (skipVerify : Bool) : Config :=
  let address : String :=
    match address with
    | none => DefaultAddress
    | some a => if a = "" then DefaultAddress else a
  let timeout : Duration := if timeout = 0 then DefaultReqTimeout else timeout
  { Address := address, Timeout := timeout, SkipVerify := skipVerify }

/-! ## pkg/models -/

/-- The struct `ErrBadRequest` of `pkg/models/errors.go`. -/
structure ErrBadRequest where
  ErrorCode : String
  ErrorMessage : String
  deriving DecidableEq, Repr

/-- Modelled from the spec: the struct `models.AccountAttributes`, whose
declaration is not among the sources.  The fields are the ones the tests
build (`Country *string`, `Name []string`); the spec treats the remaining
descriptive fields as opaque pass-through values. -/
structure AccountAttributes where
  Country : Option String
  Name : List String
  deriving DecidableEq, Repr

/-- Modelled from the spec: the struct `models.AccountData`, whose declaration
is not among the sources.  The fields are the ones of the spec's AccountRecord
as the tests build them: identifier, organisation identifier, type
discriminator (`Type` in Go, a reserved word here), optional version
(`*int64`) and optional attributes. -/
structure AccountData where
  ID : String
  OrganisationID : String
  Type_ : String
  Version : Option Int
  Attributes : Option AccountAttributes
  deriving DecidableEq, Repr

/-- Modelled from the spec: the envelope `models.Account`, a struct with the
single field `Data` (JSON name `data`); its declaration is not among the
sources. -/
structure Account where
  Data : AccountData
  deriving DecidableEq, Repr

/-! ## Go errors -/

/-- A Go `error` value: one handed over by a library (transport, codec,
`net/url`), one made by `errors.New` / `errors.Errorf`, or one made by
`errors.Wrap` around a cause. -/
inductive GoError where
  | lib (msg : String)
  | new (msg : String)
  | wrap (cause : GoError) (msg : String)
  deriving DecidableEq, Repr

/-- The method `Error()`: the message of an error.  `errors.Wrap(cause, msg)`
reads `msg: cause`. -/
def GoError.Error : GoError → String
  | .lib m => m
  | .new m => m
  | .wrap c m => m ++ ": " ++ c.Error

/-! ## context -/

/-- A `context.Context` as far as the client is concerned: its deadline, when
it has one, and whether it is already done. -/
structure Context where
  deadline : Option Time
  done : Bool
  deriving DecidableEq, Repr

/-- Go `context.Background()`: no deadline, never done. -/
def Background : Context := { deadline := none, done := false }

/-- Go `context.WithTimeout(parent, timeout)` called when the clock reads
`now`, that is `WithDeadline(parent, now.Add(timeout))`: a parent deadline
strictly before the new one is kept (the result is `WithCancel(parent)`),
otherwise the new deadline is installed and the context is done at once when
the deadline has already passed. -/
def WithTimeout (parent : Context) (now : Time) (timeout : Duration) : Context :=
  let d : Time := now + timeout
  let fresh : Context := { deadline := some d, done := parent.done || decide (d - now ≤ 0) }
  match parent.deadline with
  | some cur => if cur < d then parent else fresh
  | none => fresh

/-! ## strings, fmt -/

/-- Go `strings.Cut(s, sep)` for a one-element separator, on a list: what
stands before the first `sep` and what stands after it (all of `s` and nothing
when `sep` does not occur). -/
def cut {α : Type} [DecidableEq α] (sep : α) : List α → List α × List α
  | [] => ([], [])
  | c :: cs => if c = sep then ([], cs) else ((c :: (cut sep cs).1), (cut sep cs).2)

/-- Go `strings.Replace(s, old, new, 1)` on lists of characters: the first
occurrence of `old` in `s` is replaced by `new`. -/
def replaceFirst (old new : List Char) : List Char → List Char
  | [] => if old = [] then new else []
  | c :: cs =>
    if old.isPrefixOf (c :: cs) then new ++ (c :: cs).drop old.length
    else c :: replaceFirst old new cs

/-- Go `strings.Replace(s, old, new, 1)`. -/
def Replace1 (s old new : String) : String :=
  String.mk (replaceFirst old.data new.data s.data)

/-- Go `fmt.Sprint(v)` / the verb `%v` for an integer: its decimal rendering,
with a leading minus sign when negative. -/
def formatInt (v : Int) : String :=
  if v < 0 then "-" ++ Nat.repr v.natAbs else Nat.repr v.toNat

/-- Reading one more decimal digit: the value read so far times ten plus the
digit; `none` when the character is not one of `0` to `9`. -/
def readDigit (acc : Option Nat) (c : Char) : Option Nat :=
  match acc with
  | none => none
  | some a => if 48 ≤ c.toNat ∧ c.toNat ≤ 57 then some (10 * a + (c.toNat - 48)) else none

/-- The number that a text of decimal digits denotes, read from the left. -/
def digitsValue (l : List Char) : Option Nat := l.foldl readDigit (some 0)

/-- The natural number that a decimal numeral denotes: at least one digit, and
no leading zero except for the numeral `0` itself. -/
def readNat (l : List Char) : Option Nat :=
  match l with
  | [] => none
  | c :: cs => if c = '0' ∧ cs ≠ [] then none else digitsValue (c :: cs)

/-- The integer that a decimal numeral denotes: a numeral of a natural number,
or a minus sign before the numeral of a positive one.  Every integer has
exactly one numeral, so a text that reads as `v` is the decimal rendering of
`v`. -/
def readDecimal (s : String) : Option Int :=
  match s.data with
  | '-' :: ds =>
    match readNat ds with
    | some (n + 1) => some (-((n + 1 : Nat) : Int))
    | _ => none
  | ds => (readNat ds).map Int.ofNat

/-! ## net/url -/

/-- The UTF-8 bytes of a character: a Go string is the sequence of these. -/
def utf8Bytes (c : Char) : List Nat :=
  let v := c.toNat
  if v < 128 then [v]
  else if v < 2048 then [192 + v / 64, 128 + v % 64]
  else if v < 65536 then [224 + v / 4096, 128 + v / 64 % 64, 128 + v % 64]
  else [240 + v / 262144, 128 + v / 4096 % 64, 128 + v / 64 % 64, 128 + v % 64]

/-- The bytes of a Go string. -/
def bytesOf (s : String) : List Nat := s.data.flatMap utf8Bytes

/-- The string made of ASCII bytes (the output of `QueryEscape` is such). -/
def asciiString (bs : List Nat) : String := String.mk (bs.map Char.ofNat)

/-- The letters and digits, which `net/url` never escapes. -/
def isAlnum (c : Nat) : Bool :=
  (97 ≤ c && c ≤ 122) || (65 ≤ c && c ≤ 90) || (48 ≤ c && c ≤ 57)

/-- Go `shouldEscape(c, encodeQueryComponent)`: everything is escaped except
letters, digits and `-`, `_`, `.`, `~`. -/
def shouldEscape (c : Nat) : Bool :=
  !(isAlnum c || c = 45 || c = 95 || c = 46 || c = 126)

/-- The table `upperhex`. -/
def upperhex (n : Nat) : Nat := if n < 10 then 48 + n else 55 + n

/-- Go `url.QueryEscape` on bytes: a space becomes `+`, a byte to escape
becomes `%XX`. -/
def queryEscape (bs : List Nat) : List Nat :=
  bs.flatMap fun c =>
    if c = 32 then [43]
    else if shouldEscape c then [37, upperhex (c / 16), upperhex (c % 16)]
    else [c]

/-- Go `ishex`. -/
def ishex (c : Nat) : Bool :=
  (48 ≤ c && c ≤ 57) || (97 ≤ c && c ≤ 102) || (65 ≤ c && c ≤ 70)

/-- Go `unhex`. -/
def unhex (c : Nat) : Nat :=
  if 48 ≤ c && c ≤ 57 then c - 48
  else if 97 ≤ c && c ≤ 102 then c - 97 + 10
  else if 65 ≤ c && c ≤ 70 then c - 65 + 10
  else 0

/-- Go `url.QueryUnescape` on bytes: `%XX` becomes the byte, `+` a space;
`none` for a `%` that two hex digits do not follow. -/
def queryUnescape : List Nat → Option (List Nat)
  | [] => some []
  | c :: rest =>
    if c = 37 then
      match rest with
      | a :: b :: rest2 =>
        if ishex a && ishex b then
          (queryUnescape rest2).map fun r => (unhex a * 16 + unhex b) :: r
        else none
      | _ => none
    else if c = 43 then (queryUnescape rest).map fun r => 32 :: r
    else (queryUnescape rest).map fun r => c :: r
termination_by structural l => l

/-- Go `url.Values`, a map from key to the list of its values: here the list
of its entries, each key once, keys in ascending byte order (the order in
which `Encode` emits them). -/
abbrev Values := List (List Nat × List (List Nat))

/-- Byte-wise order of Go strings, strict. -/
def bytesLt : List Nat → List Nat → Bool
  | _, [] => false
  | [], _ :: _ => true
  | a :: as, b :: bs => a < b || (a = b && bytesLt as bs)

/-- Go `Values.Add(key, value)`: `v[key] = append(v[key], value)`. -/
def Values.Add : Values → List Nat → List Nat → Values
  | [], key, value => [(key, [value])]
  | (k, vs) :: rest, key, value =>
    if k = key then (k, vs ++ [value]) :: rest
    else if bytesLt key k then (key, [value]) :: (k, vs) :: rest
    else (k, vs) :: Values.Add rest key value

/-- Go `Values.Encode()`: `key=value` for every value of every key, keys in
ascending order, both escaped, joined by `&`. -/
def Values.Encode (v : Values) : List Nat :=
  List.intercalate [38]
    (v.flatMap fun e => e.2.map fun x => queryEscape e.1 ++ [61] ++ queryEscape x)

/-- The pieces of a byte string between the occurrences of `sep`. -/
def segments (sep : Nat) : List Nat → List (List Nat)
  | [] => [[]]
  | c :: cs =>
    if c = sep then [] :: segments sep cs
    else
      match segments sep cs with
      | [] => [[c]]
      | s :: ss => (c :: s) :: ss

/-- Go `url.ParseQuery`, its error dropped as `URL.Query()` does: the query is
cut at every `&`; a piece with a `;`, an empty piece, and a piece whose key or
value does not unescape are skipped; the others are cut at the first `=` and
added. -/
def parseQuery (query : List Nat) : Values :=
  (segments 38 query).foldl
    (fun m seg =>
      if 59 ∈ seg then m
      else if seg = [] then m
      else
        match queryUnescape (cut 61 seg).1 with
        | none => m
        | some key =>
          match queryUnescape (cut 61 seg).2 with
          | none => m
          | some value => m.Add key value)
    []

/-- A parsed `url.URL`.  `base` is the text that `URL.String()` prints for
scheme, user, host and path; `RawQuery` is the query as written, without the
`?`; `Fragment` is the text after the `#` as written. -/
structure URL where
  base : String
  ForceQuery : Bool
  RawQuery : String
  Fragment : String
  deriving DecidableEq, Repr

/-- Go `URL.Query()`. -/
def URL.Query (u : URL) : Values := parseQuery (bytesOf u.RawQuery)

/-! ## net/http -/

/-- The part of `http.Transport` the client sets: `TLSClientConfig.InsecureSkipVerify`. -/
structure Transport where
  InsecureSkipVerify : Bool
  deriving DecidableEq, Repr

/-- The part of `http.Client` the client sets. -/
structure HttpClient where
  Transport : Transport
  Timeout : Duration
  deriving DecidableEq, Repr

/-- An `http.Request`: its context, method, URL, the header lines in the order
they were added, and the body (`none` for a `nil` body). -/
structure Request where
  ctx : Context
  Method : String
  URL : URL
  Header : List (String × String)
  Body : Option String
  deriving DecidableEq, Repr

/-- Go `req.Header.Add(key, value)`. -/
def Request.addHeader (req : Request) (key value : String) : Request :=
  { req with Header := req.Header ++ [(key, value)] }

/-- An `http.Response`: the status code and the bytes of the body. -/
structure Response where
  StatusCode : Int
  Body : String
  deriving DecidableEq, Repr

/-- The status constants of `net/http` that the client names. -/
abbrev StatusOK : Int := 200
/-- Go `http.StatusCreated`. -/
abbrev StatusCreated : Int := 201
/-- Go `http.StatusNoContent`. -/
abbrev StatusNoContent : Int := 204
/-- Go `http.StatusBadRequest`. -/
abbrev StatusBadRequest : Int := 400
/-- Go `http.StatusNotFound`. -/
abbrev StatusNotFound : Int := 404
/-- Go `http.StatusConflict`. -/
abbrev StatusConflict : Int := 409

/-- Everything outside the repository that an operation consults.
`now` is the clock reading when the operation applies its timeout, `date` the
text of `time.Now().String()` when it writes the `Date` header; `jsonEncode`
is `json.NewEncoder(&buf).Encode`, `decodeAccount` and `decodeErrBadRequest`
are `json.NewDecoder(body).Decode` into a zero `models.Account` and a zero
`models.ErrBadRequest`; `Do` is `http.Client.Do`.

Of `net/url`: `urlError` is the verdict of the syntax checks of `url.Parse`
(the error for a URL string it rejects); `urlBase` gives, for the text that
stands before the query of a URL string, what `URL.String()` prints for the
scheme, user, host and path that `url.Parse` makes of it (the scheme in lower
case, the path unescaped and escaped afresh); `removeEmptyPort` gives that
text once `removeEmptyPort` has been applied to the host; `escapedFragment`
is `URL.EscapedFragment()` for the text written after the `#`. -/
structure World where
  now : Time
  date : String
  jsonEncode : Account → Except GoError String
  urlError : String → Option GoError
  urlBase : String → String
  removeEmptyPort : String → String
  escapedFragment : String → String
  Do : HttpClient → Request → Except GoError Response
  decodeAccount : String → Except GoError Account
  decodeErrBadRequest : String → Except GoError ErrBadRequest

/-- Go `url.Parse` on a URL string that passes its syntax checks: the fragment
is what follows the first `#`; of the rest, a single `?` at the very end only
forces the query mark, otherwise the query is what follows the first `?`; what
stands before the query is parsed into scheme, user, host and path, kept here
in the form `URL.String()` prints them. -/
def urlParse (w : World) (rawURL : String) : URL :=
  let u := (cut '#' rawURL.data).1
  let frag := (cut '#' rawURL.data).2
  if u.getLast? = some '?' ∧ u.count '?' = 1 then
    { base := w.urlBase (String.mk u.dropLast), ForceQuery := true, RawQuery := "",
      Fragment := String.mk frag }
  else
    { base := w.urlBase (String.mk (cut '?' u).1), ForceQuery := false,
      RawQuery := String.mk (cut '?' u).2, Fragment := String.mk frag }

/-- Go `http.NewRequestWithContext` for a valid method and a non-nil context:
it fails exactly when `url.Parse` rejects the URL, and otherwise removes an
empty port from the host of the parsed URL (`u.Host = removeEmptyPort(u.Host)`). -/
def NewRequestWithContext (w : World) (ctx : Context) (method url : String)
    (body : Option String) : Except GoError Request :=
  match w.urlError url with
  | some err => .error err
  | none =>
    let u := urlParse w url
    let u := { u with base := w.removeEmptyPort u.base }
    .ok { ctx := ctx, Method := method, URL := u, Header := [], Body := body }

/-! ## pkg/client/v1/accounts.go -/

/-- The package variable `apiVersion`. -/
def apiVersion : String := "v1"

/-- The package variable `createAccountUrl = fmt.Sprintf("/%s/organisation/accounts", apiVersion)`. -/
def createAccountUrl : String := "/" ++ apiVersion ++ "/organisation/accounts"

/-- The package variable `AccountUrlById = fmt.Sprintf("/%s/organisation/accounts/:id", apiVersion)`. -/
def AccountUrlById : String := "/" ++ apiVersion ++ "/organisation/accounts/:id"

/-- The struct `AccountClient`. -/
structure AccountClient where
  config : Config
  http : HttpClient
  deriving DecidableEq, Repr

/-- The function `NewAccountClient`. -/
def NewAccountClient (conf : Config) : AccountClient :=
  let tr : Transport := { InsecureSkipVerify := conf.SkipVerify }
  { config := conf, http := { Transport := tr, Timeout := conf.Timeout } }

/-- A call on the JSON codec or on the transport. -/
inductive Event where
  | encode (payload : Account)
  | send (req : Request)
  | decodeAccount (body : String)
  | decodeErrBadRequest (body : String)
  deriving DecidableEq, Repr

/-- What running an operation gives: the Go result and the calls made. -/
structure Run (α : Type) where
  result : α
  calls : List Event

/-- The context an operation works under (first lines of `Create`, `Fetch` and
`Delete`): a nil context is replaced by `context.Background()`, then
`context.WithTimeout(ctx, ac.config.Timeout)` is applied. -/
def opContext (ac : AccountClient) (w : World) (ctx : Option Context) : Context :=
  let ctx : Context :=
    match ctx with
    | none => Background
    | some c => c
  WithTimeout ctx w.now ac.config.Timeout

/-- The request of `Create` (lines 55 to 83): the context, the encoded
envelope, the POST request and its four headers. -/
def createRequest (ac : AccountClient) (w : World) (ctx : Option Context)
    (accountData : AccountData) : Except GoError Request :=
  let ctx := opContext ac w ctx
  let requestPayload : Account := { Data := accountData }
  match w.jsonEncode requestPayload with
  | .error err => .error err
  | .ok buf =>
    match NewRequestWithContext w ctx "POST" (ac.config.Address ++ createAccountUrl) (some buf) with
    | .error err => .error err
    | .ok req =>
      let req := req.addHeader "Host" ac.config.Address
      let req := req.addHeader "Accept" "application/vnd.api+json"
      let req := req.addHeader "Date" w.date
      let req := req.addHeader "Content-Type" "application/vnd.api+json"
      .ok req

/-- The method `AccountClient.Create`. -/
def Create (ac : AccountClient) (w : World) (ctx : Option Context)
    (accountData : AccountData) : Run (Option AccountData × Option GoError) :=
  let encoded : List Event := [.encode { Data := accountData }]
  match createRequest ac w ctx accountData with
  | .error err => ⟨(none, some err), encoded⟩
  | .ok req =>
    match w.Do ac.http req with
    | .error err => ⟨(none, some err), encoded ++ [.send req]⟩
    | .ok rsp =>
      if rsp.StatusCode = StatusCreated then
        match w.decodeAccount rsp.Body with
        | .error err =>
          ⟨(none, some (.wrap err "error parsing created account data")),
            encoded ++ [.send req, .decodeAccount rsp.Body]⟩
        | .ok account =>
          ⟨(some account.Data, none), encoded ++ [.send req, .decodeAccount rsp.Body]⟩
      else if rsp.StatusCode = StatusBadRequest then
        match w.decodeErrBadRequest rsp.Body with
        | .error err =>
          ⟨(none, some (.wrap err "payload parsing error")),
            encoded ++ [.send req, .decodeErrBadRequest rsp.Body]⟩
        | .ok err =>
          let respErr : GoError :=
            .new ("error code: " ++ err.ErrorCode ++ ", message: " ++ err.ErrorMessage)
          ⟨(none, some respErr), encoded ++ [.send req, .decodeErrBadRequest rsp.Body]⟩
      else
        let err : GoError :=
          .new ("creating account resulted in unexpected HTTP error code: "
            ++ formatInt rsp.StatusCode)
        ⟨(none, some err), encoded ++ [.send req]⟩

/-- The request of `Fetch` (lines 116 to 134): the context, the GET request
and its three headers. -/
def fetchRequest (ac : AccountClient) (w : World) (ctx : Option Context)
    (id : String) : Except GoError Request :=
  let ctx := opContext ac w ctx
  match NewRequestWithContext w ctx "GET"
      (ac.config.Address ++ Replace1 AccountUrlById ":id" id) none with
  | .error err => .error err
  | .ok req =>
    let req := req.addHeader "Host" ac.config.Address
    let req := req.addHeader "Accept" "application/vnd.api+json"
    let req := req.addHeader "Date" w.date
    .ok req

/-- The method `AccountClient.Fetch`. -/
def Fetch (ac : AccountClient) (w : World) (ctx : Option Context)
    (id : String) : Run (Option AccountData × Option GoError) :=
  match fetchRequest ac w ctx id with
  | .error err => ⟨(none, some err), []⟩
  | .ok req =>
    match w.Do ac.http req with
    | .error err => ⟨(none, some err), [.send req]⟩
    | .ok rsp =>
      if rsp.StatusCode = StatusNotFound then
        ⟨(none, none), [.send req]⟩
      else if rsp.StatusCode = StatusOK then
        match w.decodeAccount rsp.Body with
        | .error err =>
          ⟨(none, some (.wrap err "error parsing account")),
            [.send req, .decodeAccount rsp.Body]⟩
        | .ok account => ⟨(some account.Data, none), [.send req, .decodeAccount rsp.Body]⟩
      else if rsp.StatusCode = StatusBadRequest then
        match w.decodeErrBadRequest rsp.Body with
        | .error err =>
          ⟨(none, some (.wrap err "payload parsing error")),
            [.send req, .decodeErrBadRequest rsp.Body]⟩
        | .ok err =>
          let requestErr : GoError :=
            .new ("error code: " ++ err.ErrorCode ++ ", message: " ++ err.ErrorMessage)
          ⟨(none, some requestErr), [.send req, .decodeErrBadRequest rsp.Body]⟩
      else
        let err : GoError :=
          .new ("getting account data resulted in unexpected HTTP error code: "
            ++ formatInt rsp.StatusCode)
        ⟨(none, some err), [.send req]⟩

/-- The request of `Delete` (lines 170 to 191): the context, the DELETE
request, its three headers, and the query with `version` added to it. -/
def deleteRequest (ac : AccountClient) (w : World) (ctx : Option Context)
    (id : String) (version : Int) : Except GoError Request :=
  let ctx := opContext ac w ctx
  match NewRequestWithContext w ctx "DELETE"
      (ac.config.Address ++ Replace1 AccountUrlById ":id" id) none with
  | .error err => .error err
  | .ok req =>
    let req := req.addHeader "Host" ac.config.Address
    let req := req.addHeader "Accept" "application/vnd.api+json"
    let req := req.addHeader "Date" w.date
    let query := req.URL.Query
    let query := query.Add (bytesOf "version") (bytesOf (formatInt version))
    .ok { req with URL := { req.URL with RawQuery := asciiString query.Encode } }

/-- The method `AccountClient.Delete`; the result is the returned `error`. -/
def Delete (ac : AccountClient) (w : World) (ctx : Option Context)
    (id : String) (version : Int) : Run (Option GoError) :=
  match deleteRequest ac w ctx id version with
  | .error err => ⟨some err, []⟩
  | .ok req =>
    match w.Do ac.http req with
    | .error err => ⟨some err, [.send req]⟩
    | .ok rsp =>
      if rsp.StatusCode = StatusNoContent then
        ⟨none, [.send req]⟩
      else if rsp.StatusCode = StatusNotFound then
        ⟨some (.new "specified resource does not exist"), [.send req]⟩
      else if rsp.StatusCode = StatusBadRequest then
        match w.decodeErrBadRequest rsp.Body with
        | .error err =>
          ⟨some (.wrap err "payload parsing error"),
            [.send req, .decodeErrBadRequest rsp.Body]⟩
        | .ok err =>
          let requestErr : GoError :=
            .new ("error code: " ++ err.ErrorCode ++ ", message: " ++ err.ErrorMessage)
          ⟨some requestErr, [.send req, .decodeErrBadRequest rsp.Body]⟩
      else if rsp.StatusCode = StatusConflict then
        ⟨some (.new "specified version incorrect"), [.send req]⟩
      else
        let err : GoError :=
          .new ("deleting account resulted in unexpected HTTP error code: "
            ++ formatInt rsp.StatusCode)
        ⟨some err, [.send req]⟩

/-- A world whose server answers every request with the given response: the
clock reads 1000, the encoder writes a fixed body, `url.Parse` accepts every
URL and `URL.String()` prints scheme, host and path as they were written (as
Go does for the addresses used with this world: a scheme in lower case, a host
without an empty port, a path of characters that are not escaped), and the
decoders read a fixed envelope and a fixed error payload. -/
def answering (rsp : Response) : World :=
  { now := 1000
    date := "2021-01-01 00:00:00 +0000 UTC"
    jsonEncode := fun _ => .ok "payload"
    urlError := fun _ => none
    urlBase := fun t => t
    removeEmptyPort := fun t => t
    escapedFragment := fun t => t
    Do := fun _ _ => .ok rsp
    decodeAccount := fun _ =>
      .ok { Data := { ID := "a1", OrganisationID := "o1", Type_ := "accounts",
                      Version := some 0, Attributes := none } }
    decodeErrBadRequest := fun _ =>
      .ok { ErrorCode := "", ErrorMessage := "id is not a valid uuid" } }

/-- A world whose transport fails every call with the given error. -/
def failing (e : GoError) : World :=
  { answering { StatusCode := 0, Body := "" } with Do := fun _ _ => .error e }

/-- A client for the default address with a timeout of five seconds. -/
def sampleClient : AccountClient :=
  NewAccountClient { Address := DefaultAddress, Timeout := DefaultReqTimeout, SkipVerify := true }

/-- A record as a caller passes it to `Create`. -/
def sampleData : AccountData :=
  { ID := "a1", OrganisationID := "o1", Type_ := "accounts", Version := none,
    Attributes := some { Country := some "GB", Name := ["Johnny Bravo"] } }

/-! ## Theorems -/

/-- A text is found inside every text that ends with it. -/
theorem suffix_is_contained (p t : String) : t.data <:+: (p ++ t).data :=
  ⟨p.data, [], by simp⟩

/-- A decimal digit character is one of `0` to `9` and denotes its digit. -/
theorem digitChar_reads (k : Nat) (h : k < 10) :
    48 ≤ (Nat.digitChar k).toNat ∧ (Nat.digitChar k).toNat ≤ 57
      ∧ (Nat.digitChar k).toNat - 48 = k
      ∧ (Nat.digitChar k = '0' → k = 0) ∧ Nat.digitChar k ≠ '-' := by
  interval_cases k <;> decide

/-- Reading the digits that `Nat.toDigitsCore` puts in front of `ds` gives the
number they were made from. -/
theorem foldl_readDigit_toDigitsCore (fuel n : Nat) (ds : List Char) (h : n < fuel) :
    (Nat.toDigitsCore 10 fuel n ds).foldl readDigit (some 0)
      = ds.foldl readDigit (some n) := by
  induction fuel generalizing n ds with
  | zero => omega
  | succ k ih =>
    obtain ⟨h1, h2, h3, -, -⟩ := digitChar_reads (n % 10) (Nat.mod_lt _ (by decide))
    simp only [Nat.toDigitsCore]
    split
    · rename_i hz
      have hn : n % 10 = n := by omega
      simp only [List.foldl_cons, readDigit, Nat.mul_zero, Nat.zero_add, if_pos (And.intro h1 h2),
        h3]
      rw [hn]
    · rename_i hz
      rw [ih (n / 10) _ (by omega)]
      have hn : 10 * (n / 10) + n % 10 = n := by omega
      simp [readDigit, h1, h2, h3, hn]

/-- The digits of a number start with a digit, which is `0` only for the
number 0, and then nothing follows it. -/
theorem toDigitsCore_head (fuel n : Nat) (ds : List Char) (h : n < fuel) :
    ∃ c cs, Nat.toDigitsCore 10 fuel n ds = c :: cs
      ∧ (c = '0' → n = 0 ∧ cs = ds) ∧ c ≠ '-' := by
  induction fuel generalizing n ds with
  | zero => omega
  | succ k ih =>
    obtain ⟨-, -, -, h4, h5⟩ := digitChar_reads (n % 10) (Nat.mod_lt _ (by decide))
    simp only [Nat.toDigitsCore]
    split
    · rename_i hz
      exact ⟨_, _, rfl, fun hc => ⟨by have := h4 hc; omega, rfl⟩, h5⟩
    · rename_i hz
      obtain ⟨c, cs, hcs, h0, hm⟩ := ih (n / 10) (Nat.digitChar (n % 10) :: ds) (by omega)
      exact ⟨c, cs, hcs, fun hc => absurd (h0 hc).1 hz, hm⟩

/-- The decimal rendering of a natural number reads back as that number. -/
theorem readNat_toDigits (n : Nat) : readNat (Nat.toDigits 10 n) = some n := by
  obtain ⟨c, cs, hcs, h0, -⟩ := toDigitsCore_head (n + 1) n [] (by omega)
  have hval := foldl_readDigit_toDigitsCore (n + 1) n [] (by omega)
  unfold Nat.toDigits
  rw [hcs] at hval ⊢
  have hcanon : ¬ (c = '0' ∧ cs ≠ []) := fun hc => hc.2 (h0 hc.1).2
  simp only [readNat, if_neg hcanon, digitsValue]
  simpa using hval

/-- `formatInt v` is the decimal numeral of `v`: it reads back as `v`. -/
theorem readDecimal_formatInt (v : Int) : readDecimal (formatInt v) = some v := by
  unfold formatInt
  by_cases hv : v < 0
  · obtain ⟨m, hm⟩ : ∃ m, v.natAbs = m + 1 := ⟨v.natAbs - 1, by omega⟩
    have hdata : ("-" ++ Nat.repr v.natAbs).data = '-' :: Nat.toDigits 10 v.natAbs := by
      simp [Nat.repr, List.asString]
    rw [if_pos hv]
    unfold readDecimal
    rw [hdata]
    simp only [readNat_toDigits, hm]
    simp only [Option.some.injEq]
    omega
  · obtain ⟨c, cs, hcs, -, hminus⟩ := toDigitsCore_head (v.toNat + 1) v.toNat [] (by omega)
    have hnat := readNat_toDigits v.toNat
    have hdata : (Nat.repr v.toNat).data = c :: cs := by
      simp only [Nat.repr, Nat.toDigits, List.asString]
      exact hcs
    have hread : readNat (c :: cs) = some v.toNat := by
      rw [← hcs]
      exact hnat
    simp only [if_neg hv, readDecimal, hdata]
    split
    · rename_i heq
      exact absurd (List.cons.inj heq).1 hminus
    · rw [hread]
      simp only [Option.map_some', Option.some.injEq]
      show (v.toNat : Int) = v
      omega

/-- The deadline of the context an operation works under. -/
theorem opContext_deadline (ac : AccountClient) (w : World) (ctx : Option Context) :
    (opContext ac w ctx).deadline
      = some (match (ctx.getD Background).deadline with
              | some d => min d (w.now + ac.config.Timeout)
              | none => w.now + ac.config.Timeout) := by
  unfold opContext WithTimeout
  cases ctx with
  | none => simp [Background]
  | some c =>
    cases hd : c.deadline with
    | none => simp [hd]
    | some d =>
      simp only [Option.getD_some, hd]
      by_cases hlt : d < w.now + ac.config.Timeout
      · simp [hlt, hd, min_eq_left (le_of_lt hlt)]
      · simp [hlt, min_eq_right (not_lt.mp hlt)]

/-- The request of `Create` carries the context the operation works under. -/
theorem createRequest_ctx {ac : AccountClient} {w : World} {ctx : Option Context}
    {accountData : AccountData} {req : Request}
    (h : createRequest ac w ctx accountData = .ok req) : req.ctx = opContext ac w ctx := by
  cases hj : w.jsonEncode { Data := accountData } with
  | error e => simp [createRequest, hj] at h
  | ok buf =>
    cases hu : w.urlError (ac.config.Address ++ createAccountUrl) with
    | some e => simp [createRequest, NewRequestWithContext, hj, hu] at h
    | none =>
      simp only [createRequest, NewRequestWithContext, hj, hu, Except.ok.injEq] at h
      rw [← h]
      rfl

/-- The request of `Fetch` carries the context the operation works under. -/
theorem fetchRequest_ctx {ac : AccountClient} {w : World} {ctx : Option Context}
    {id : String} {req : Request}
    (h : fetchRequest ac w ctx id = .ok req) : req.ctx = opContext ac w ctx := by
  cases hu : w.urlError (ac.config.Address ++ Replace1 AccountUrlById ":id" id) with
  | some e => simp [fetchRequest, NewRequestWithContext, hu] at h
  | none =>
    simp only [fetchRequest, NewRequestWithContext, hu, Except.ok.injEq] at h
    rw [← h]
    rfl

/-- The request of `Delete` carries the context the operation works under. -/
theorem deleteRequest_ctx {ac : AccountClient} {w : World} {ctx : Option Context}
    {id : String} {version : Int} {req : Request}
    (h : deleteRequest ac w ctx id version = .ok req) : req.ctx = opContext ac w ctx := by
  cases hu : w.urlError (ac.config.Address ++ Replace1 AccountUrlById ":id" id) with
  | some e => simp [deleteRequest, NewRequestWithContext, hu] at h
  | none =>
    simp only [deleteRequest, NewRequestWithContext, hu, Except.ok.injEq] at h
    rw [← h]
    rfl

/-- C9: `NewConfig` only applies defaults.  The address is
`http://localhost:8080` when the argument is nil or empty and the argument
otherwise, the timeout is five seconds (in nanoseconds) when the argument is 0
and the argument otherwise, and the flag is passed through.  `NewConfig` is a
total function into `Config`: there is no failure outcome. -/
theorem NewConfig_applies_defaults (a : Option String) (t : Duration) (s : Bool) :
    (NewConfig a t s).Address
        = (if a = none ∨ a = some "" then "http://localhost:8080" else a.getD "")
      ∧ (NewConfig a t s).Timeout = (if t = 0 then 5 * 1000000000 else t)
      ∧ (NewConfig a t s).SkipVerify = s := by
  refine ⟨?_, ?_, rfl⟩
  · cases a with
    | none => simp [NewConfig, DefaultAddress]
    | some x =>
      by_cases hx : x = ""
      · simp [NewConfig, DefaultAddress, hx]
      · simp [NewConfig, hx]
  · by_cases ht : t = 0
    · simp [NewConfig, ht, DefaultReqTimeout, Second]
    · simp [NewConfig, ht]

/-- C1: `Fetch` returns no record and no error exactly when the request was
built, the transport call succeeded and the status is 404.  The body of the
response plays no part; in every other case a record or an error comes back. -/
theorem Fetch_absent_iff (ac : AccountClient) (w : World) (ctx : Option Context) (id : String) :
    ((Fetch ac w ctx id).result.1 = none ∧ (Fetch ac w ctx id).result.2 = none)
      ↔ ∃ req rsp, fetchRequest ac w ctx id = .ok req ∧ w.Do ac.http req = .ok rsp
          ∧ rsp.StatusCode = 404 := by
  constructor
  · intro h
    cases hreq : fetchRequest ac w ctx id with
    | error e => simp [Fetch, hreq] at h
    | ok req =>
      cases hdo : w.Do ac.http req with
      | error e => simp [Fetch, hreq, hdo] at h
      | ok rsp =>
        refine ⟨req, rsp, rfl, hdo, ?_⟩
        by_contra h404
        have h404b : ¬ rsp.StatusCode = StatusNotFound := h404
        simp only [Fetch, hreq, hdo, if_neg h404b] at h
        revert h
        split
        · split <;> simp
        · split
          · split <;> simp
          · simp
  · rintro ⟨req, rsp, hreq, hdo, h404⟩
    have h404b : rsp.StatusCode = StatusNotFound := h404
    simp [Fetch, hreq, hdo, h404b]

/-- C2: `Delete` on the statuses without a body.  Once the transport has
answered, status 204 gives no error, status 404 gives the error reading
`specified resource does not exist` and status 409 the error reading
`specified version incorrect`, for every identifier, version and body; the
only call made is the sending of the request. -/
theorem Delete_bodyless_statuses (ac : AccountClient) (w : World) (ctx : Option Context)
    (id : String) (version : Int) (req : Request) (rsp : Response)
    (hreq : deleteRequest ac w ctx id version = .ok req)
    (hdo : w.Do ac.http req = .ok rsp) :
    (rsp.StatusCode = 204 → (Delete ac w ctx id version).result = none)
      ∧ (rsp.StatusCode = 404 →
          (Delete ac w ctx id version).result.map GoError.Error
            = some "specified resource does not exist")
      ∧ (rsp.StatusCode = 409 →
          (Delete ac w ctx id version).result.map GoError.Error
            = some "specified version incorrect")
      ∧ (rsp.StatusCode = 204 ∨ rsp.StatusCode = 404 ∨ rsp.StatusCode = 409 →
          (Delete ac w ctx id version).calls = [.send req]) := by
  refine ⟨?_, ?_, ?_, ?_⟩
  · intro h
    simp [Delete, hreq, hdo, h]
  · intro h
    simp [Delete, hreq, hdo, h, GoError.Error]
  · intro h
    simp [Delete, hreq, hdo, h, GoError.Error]
  · rintro (h | h | h) <;> simp [Delete, hreq, hdo, h]

/-- C2 at concrete inputs: a server answering 204, 404 and 409, each with a
body that is not JSON. -/
theorem Delete_bodyless_statuses_witness :
    (Delete sampleClient (answering { StatusCode := 204, Body := "<html>" }) none "1234" 7).result
        = none
      ∧ (Delete sampleClient (answering { StatusCode := 404, Body := "<html>" })
            (some Background) "1234" 7).result.map GoError.Error
          = some "specified resource does not exist"
      ∧ (Delete sampleClient (answering { StatusCode := 409, Body := "<html>" })
            (some Background) "1234" 7).result.map GoError.Error
          = some "specified version incorrect" :=
  ⟨(Delete_bodyless_statuses sampleClient (answering { StatusCode := 204, Body := "<html>" })
      none "1234" 7 _ _ rfl rfl).1 rfl,
   (Delete_bodyless_statuses sampleClient (answering { StatusCode := 404, Body := "<html>" })
      (some Background) "1234" 7 _ _ rfl rfl).2.1 rfl,
   (Delete_bodyless_statuses sampleClient (answering { StatusCode := 409, Body := "<html>" })
      (some Background) "1234" 7 _ _ rfl rfl).2.2.1 rfl⟩

/-- C3: the shared mapping of status 400.  When the server answers 400 and the
body decodes to an error payload with code `c` and message `m`, each of
`Create`, `Fetch` and `Delete` fails with the error reading
`error code: c, message: m`, and `Create` and `Fetch` return no record. -/
theorem bad_request_mapping (ac : AccountClient) (w : World) (ctx : Option Context)
    (accountData : AccountData) (id : String) (version : Int) (rsp : Response)
    (c m : String) (h400 : rsp.StatusCode = 400)
    (hdec : w.decodeErrBadRequest rsp.Body = .ok { ErrorCode := c, ErrorMessage := m }) :
    (∀ req, createRequest ac w ctx accountData = .ok req → w.Do ac.http req = .ok rsp →
        (Create ac w ctx accountData).result.1 = none
          ∧ (Create ac w ctx accountData).result.2.map GoError.Error
              = some ("error code: " ++ c ++ ", message: " ++ m))
      ∧ (∀ req, fetchRequest ac w ctx id = .ok req → w.Do ac.http req = .ok rsp →
          (Fetch ac w ctx id).result.1 = none
            ∧ (Fetch ac w ctx id).result.2.map GoError.Error
                = some ("error code: " ++ c ++ ", message: " ++ m))
      ∧ (∀ req, deleteRequest ac w ctx id version = .ok req → w.Do ac.http req = .ok rsp →
          (Delete ac w ctx id version).result.map GoError.Error
            = some ("error code: " ++ c ++ ", message: " ++ m)) := by
  refine ⟨?_, ?_, ?_⟩
  · intro req hreq hdo
    simp [Create, hreq, hdo, h400, hdec, GoError.Error]
  · intro req hreq hdo
    simp [Fetch, hreq, hdo, h400, hdec, GoError.Error]
  · intro req hreq hdo
    simp [Delete, hreq, hdo, h400, hdec, GoError.Error]

/-- C3 at a concrete input: the server answers 400 with an error payload whose
code is empty, as the account API does for an identifier that is no UUID. -/
theorem bad_request_mapping_witness :
    ((Create sampleClient (answering { StatusCode := 400, Body := "e" }) none sampleData).result.1
          = none
        ∧ (Create sampleClient (answering { StatusCode := 400, Body := "e" }) none
              sampleData).result.2.map GoError.Error
            = some ("error code: " ++ "" ++ ", message: " ++ "id is not a valid uuid"))
      ∧ ((Fetch sampleClient (answering { StatusCode := 400, Body := "e" }) none "1234").result.1
            = none
          ∧ (Fetch sampleClient (answering { StatusCode := 400, Body := "e" }) none
                "1234").result.2.map GoError.Error
              = some ("error code: " ++ "" ++ ", message: " ++ "id is not a valid uuid"))
      ∧ (Delete sampleClient (answering { StatusCode := 400, Body := "e" }) none
            "1234" 0).result.map GoError.Error
          = some ("error code: " ++ "" ++ ", message: " ++ "id is not a valid uuid") :=
  have h := bad_request_mapping sampleClient (answering { StatusCode := 400, Body := "e" }) none
    sampleData "1234" 0 { StatusCode := 400, Body := "e" } "" "id is not a valid uuid" rfl rfl
  ⟨h.1 _ rfl rfl, h.2.1 _ rfl rfl, h.2.2 _ rfl rfl⟩

/-- C4: a status that is not modelled.  For a status other than 201 and 400
`Create`, other than 200, 404 and 400 `Fetch`, and other than 204, 404, 400
and 409 `Delete` fails with an error whose message is the fixed text of the
operation followed by the decimal numeral of the status, a text that reads
back as the status (so the message contains the decimal rendering of the
status), returns no record, and calls no decoder: the calls are the ones made
up to the sending of the request. -/
theorem unexpected_status_error (ac : AccountClient) (w : World) (ctx : Option Context)
    (accountData : AccountData) (id : String) (version : Int) (rsp : Response) :
    (∀ req, createRequest ac w ctx accountData = .ok req → w.Do ac.http req = .ok rsp →
        rsp.StatusCode ≠ 201 → rsp.StatusCode ≠ 400 →
        (Create ac w ctx accountData).result.1 = none
          ∧ (Create ac w ctx accountData).result.2.map GoError.Error
              = some ("creating account resulted in unexpected HTTP error code: "
                  ++ formatInt rsp.StatusCode)
          ∧ (∃ e, (Create ac w ctx accountData).result.2 = some e
                ∧ (formatInt rsp.StatusCode).data <:+: e.Error.data)
          ∧ (∃ e numeral, (Create ac w ctx accountData).result.2 = some e
                ∧ e.Error = "creating account resulted in unexpected HTTP error code: " ++ numeral
                ∧ readDecimal numeral = some rsp.StatusCode)
          ∧ (Create ac w ctx accountData).calls = [.encode { Data := accountData }, .send req])
      ∧ (∀ req, fetchRequest ac w ctx id = .ok req → w.Do ac.http req = .ok rsp →
          rsp.StatusCode ≠ 200 → rsp.StatusCode ≠ 404 → rsp.StatusCode ≠ 400 →
          (Fetch ac w ctx id).result.1 = none
            ∧ (Fetch ac w ctx id).result.2.map GoError.Error
                = some ("getting account data resulted in unexpected HTTP error code: "
                    ++ formatInt rsp.StatusCode)
            ∧ (∃ e, (Fetch ac w ctx id).result.2 = some e
                  ∧ (formatInt rsp.StatusCode).data <:+: e.Error.data)
            ∧ (∃ e numeral, (Fetch ac w ctx id).result.2 = some e
                  ∧ e.Error
                      = "getting account data resulted in unexpected HTTP error code: " ++ numeral
                  ∧ readDecimal numeral = some rsp.StatusCode)
            ∧ (Fetch ac w ctx id).calls = [.send req])
      ∧ (∀ req, deleteRequest ac w ctx id version = .ok req → w.Do ac.http req = .ok rsp →
          rsp.StatusCode ≠ 204 → rsp.StatusCode ≠ 404 → rsp.StatusCode ≠ 400 →
          rsp.StatusCode ≠ 409 →
          (Delete ac w ctx id version).result.map GoError.Error
              = some ("deleting account resulted in unexpected HTTP error code: "
                  ++ formatInt rsp.StatusCode)
            ∧ (∃ e, (Delete ac w ctx id version).result = some e
                  ∧ (formatInt rsp.StatusCode).data <:+: e.Error.data)
            ∧ (∃ e numeral, (Delete ac w ctx id version).result = some e
                  ∧ e.Error = "deleting account resulted in unexpected HTTP error code: " ++ numeral
                  ∧ readDecimal numeral = some rsp.StatusCode)
            ∧ (Delete ac w ctx id version).calls = [.send req]) := by
  refine ⟨?_, ?_, ?_⟩
  · intro req hreq hdo h1 h2
    have hrun : Create ac w ctx accountData
        = ⟨(none, some (.new ("creating account resulted in unexpected HTTP error code: "
            ++ formatInt rsp.StatusCode))), [.encode { Data := accountData }, .send req]⟩ := by
      simp [Create, hreq, hdo, h1, h2]
    rw [hrun]
    exact ⟨rfl, rfl, ⟨_, rfl, suffix_is_contained _ _⟩,
      ⟨_, _, rfl, rfl, readDecimal_formatInt _⟩, rfl⟩
  · intro req hreq hdo h1 h2 h3
    have hrun : Fetch ac w ctx id
        = ⟨(none, some (.new ("getting account data resulted in unexpected HTTP error code: "
            ++ formatInt rsp.StatusCode))), [.send req]⟩ := by
      simp [Fetch, hreq, hdo, h1, h2, h3]
    rw [hrun]
    exact ⟨rfl, rfl, ⟨_, rfl, suffix_is_contained _ _⟩,
      ⟨_, _, rfl, rfl, readDecimal_formatInt _⟩, rfl⟩
  · intro req hreq hdo h1 h2 h3 h4
    have hrun : Delete ac w ctx id version
        = ⟨some (.new ("deleting account resulted in unexpected HTTP error code: "
            ++ formatInt rsp.StatusCode)), [.send req]⟩ := by
      simp [Delete, hreq, hdo, h1, h2, h3, h4]
    rw [hrun]
    exact ⟨rfl, ⟨_, rfl, suffix_is_contained _ _⟩,
      ⟨_, _, rfl, rfl, readDecimal_formatInt _⟩, rfl⟩

/-- C4 at concrete inputs: the server answers 500 to `Create`, 503 to `Fetch`
and 302 to `Delete`, and the messages end in `500`, `503` and `302`. -/
theorem unexpected_status_error_witness :
    (Create sampleClient (answering { StatusCode := 500, Body := "body" }) none
          sampleData).result.2.map GoError.Error
        = some "creating account resulted in unexpected HTTP error code: 500"
      ∧ (Fetch sampleClient (answering { StatusCode := 503, Body := "body" }) none
            "1234").result.2.map GoError.Error
          = some "getting account data resulted in unexpected HTTP error code: 503"
      ∧ (Delete sampleClient (answering { StatusCode := 302, Body := "body" }) none
            "1234" 0).result.map GoError.Error
          = some "deleting account resulted in unexpected HTTP error code: 302" :=
  ⟨((unexpected_status_error sampleClient (answering { StatusCode := 500, Body := "body" }) none
      sampleData "1234" 0 { StatusCode := 500, Body := "body" }).1 _ rfl rfl
      (by decide) (by decide)).2.1.trans (by decide),
   ((unexpected_status_error sampleClient (answering { StatusCode := 503, Body := "body" }) none
      sampleData "1234" 0 { StatusCode := 503, Body := "body" }).2.1 _ rfl rfl
      (by decide) (by decide) (by decide)).2.1.trans (by decide),
   ((unexpected_status_error sampleClient (answering { StatusCode := 302, Body := "body" }) none
      sampleData "1234" 0 { StatusCode := 302, Body := "body" }).2.2 _ rfl rfl
      (by decide) (by decide) (by decide) (by decide)).1.trans (by decide)⟩

/-- C5: the success status.  When the server answers 201 to `Create`, or 200
to `Fetch`, with a body that decodes as the envelope around a record `r`, the
operation returns `r` and no error; for `Create` this is the server's record,
whatever record the caller passed in. -/
theorem success_returns_enveloped_record (ac : AccountClient) (w : World)
    (ctx : Option Context) (accountData : AccountData) (id : String) (rsp : Response)
    (r : AccountData) (hdec : w.decodeAccount rsp.Body = .ok { Data := r }) :
    (∀ req, createRequest ac w ctx accountData = .ok req → w.Do ac.http req = .ok rsp →
        rsp.StatusCode = 201 → (Create ac w ctx accountData).result = (some r, none))
      ∧ (∀ req, fetchRequest ac w ctx id = .ok req → w.Do ac.http req = .ok rsp →
          rsp.StatusCode = 200 → (Fetch ac w ctx id).result = (some r, none)) := by
  refine ⟨?_, ?_⟩
  · intro req hreq hdo h
    simp [Create, hreq, hdo, h, hdec]
  · intro req hreq hdo h
    simp [Fetch, hreq, hdo, h, hdec]

/-- C5 at a concrete input: the caller passes a record without a version and
with attributes, the server's envelope holds a record with version 0 and no
attributes, and the server's record is what comes back. -/
theorem success_returns_enveloped_record_witness :
    (Create sampleClient (answering { StatusCode := 201, Body := "body" }) none sampleData).result
        = (some { ID := "a1", OrganisationID := "o1", Type_ := "accounts",
                  Version := some 0, Attributes := none }, none)
      ∧ (Fetch sampleClient (answering { StatusCode := 200, Body := "body" }) none "a1").result
          = (some { ID := "a1", OrganisationID := "o1", Type_ := "accounts",
                    Version := some 0, Attributes := none }, none) :=
  ⟨(success_returns_enveloped_record sampleClient (answering { StatusCode := 201, Body := "body" })
      none sampleData "a1" { StatusCode := 201, Body := "body" } _ rfl).1 _ rfl rfl rfl,
   (success_returns_enveloped_record sampleClient (answering { StatusCode := 200, Body := "body" })
      none sampleData "a1" { StatusCode := 200, Body := "body" } _ rfl).2 _ rfl rfl rfl⟩

/-- C6: a transport failure.  When the transport fails the request with an
error `e`, each operation returns that very error (so the same message),
`Create` and `Fetch` return no record, and no decoder is called: the calls end
with the sending of the request, and the result does not depend on any status
or body. -/
theorem transport_failure_is_returned (ac : AccountClient) (w : World) (ctx : Option Context)
    (accountData : AccountData) (id : String) (version : Int) (e : GoError) :
    (∀ req, createRequest ac w ctx accountData = .ok req → w.Do ac.http req = .error e →
        (Create ac w ctx accountData).result = (none, some e)
          ∧ (Create ac w ctx accountData).calls = [.encode { Data := accountData }, .send req])
      ∧ (∀ req, fetchRequest ac w ctx id = .ok req → w.Do ac.http req = .error e →
          (Fetch ac w ctx id).result = (none, some e)
            ∧ (Fetch ac w ctx id).calls = [.send req])
      ∧ (∀ req, deleteRequest ac w ctx id version = .ok req → w.Do ac.http req = .error e →
          (Delete ac w ctx id version).result = some e
            ∧ (Delete ac w ctx id version).calls = [.send req]) := by
  refine ⟨?_, ?_, ?_⟩
  · intro req hreq hdo
    simp [Create, hreq, hdo]
  · intro req hreq hdo
    simp [Fetch, hreq, hdo]
  · intro req hreq hdo
    simp [Delete, hreq, hdo]

/-- C6 at a concrete input: the name of the host does not resolve. -/
theorem transport_failure_is_returned_witness :
    (Create sampleClient (failing (.lib "dial tcp: lookup improper_address")) none
          sampleData).result
        = (none, some (.lib "dial tcp: lookup improper_address"))
      ∧ (Fetch sampleClient (failing (.lib "dial tcp: lookup improper_address")) none
            "1234").result
          = (none, some (.lib "dial tcp: lookup improper_address"))
      ∧ (Delete sampleClient (failing (.lib "dial tcp: lookup improper_address")) none
            "1234" 0).result
          = some (.lib "dial tcp: lookup improper_address") :=
  have h := transport_failure_is_returned sampleClient
    (failing (.lib "dial tcp: lookup improper_address")) none sampleData "1234" 0
    (.lib "dial tcp: lookup improper_address")
  ⟨(h.1 _ rfl rfl).1, (h.2.1 _ rfl rfl).1, (h.2.2 _ rfl rfl).1⟩

/-- C7: the effective deadline.  A client built by `NewAccountClient` stores
the timeout of its `Config` unchanged (0 included), and for every client with
stored timeout `T`, the request that `Create`, `Fetch` or `Delete` builds
carries a context whose deadline is `min d (t0 + T)` when the caller's context
has the deadline `d`, and `t0 + T` when it has none (or is nil), `t0` being
the clock reading at which the operation applies its timeout. -/
theorem request_deadline_is_earliest (ac : AccountClient) (w : World) (ctx : Option Context)
    (accountData : AccountData) (id : String) (version : Int) (conf : Config) :
    (NewAccountClient conf).config.Timeout = conf.Timeout
      ∧ (∀ req, createRequest ac w ctx accountData = .ok req →
          req.ctx.deadline
            = some (match (ctx.getD Background).deadline with
                    | some d => min d (w.now + ac.config.Timeout)
                    | none => w.now + ac.config.Timeout))
      ∧ (∀ req, fetchRequest ac w ctx id = .ok req →
          req.ctx.deadline
            = some (match (ctx.getD Background).deadline with
                    | some d => min d (w.now + ac.config.Timeout)
                    | none => w.now + ac.config.Timeout))
      ∧ (∀ req, deleteRequest ac w ctx id version = .ok req →
          req.ctx.deadline
            = some (match (ctx.getD Background).deadline with
                    | some d => min d (w.now + ac.config.Timeout)
                    | none => w.now + ac.config.Timeout)) := by
  refine ⟨rfl, ?_, ?_, ?_⟩
  · intro req h
    rw [createRequest_ctx h, opContext_deadline]
  · intro req h
    rw [fetchRequest_ctx h, opContext_deadline]
  · intro req h
    rw [deleteRequest_ctx h, opContext_deadline]

/-- C7 at concrete inputs: the clock reads 1000; a client whose `Config` has
the timeout 0 and a caller deadline of 5000 give the deadline 1000, and the
client with five seconds gives 5000 against the caller's 5000 and
5000001000 for a caller without a deadline. -/
theorem request_deadline_is_earliest_witness :
    (∃ req, createRequest
          (NewAccountClient { Address := "http://localhost:8080", Timeout := 0, SkipVerify := false })
          (answering { StatusCode := 201, Body := "" })
          (some { deadline := some 5000, done := false }) sampleData = .ok req
        ∧ req.ctx.deadline = some 1000)
      ∧ (∃ req, fetchRequest sampleClient (answering { StatusCode := 200, Body := "" })
            (some { deadline := some 5000, done := false }) "1234" = .ok req
          ∧ req.ctx.deadline = some 5000)
      ∧ (∃ req, deleteRequest sampleClient (answering { StatusCode := 204, Body := "" })
            none "1234" 0 = .ok req
          ∧ req.ctx.deadline = some 5000001000) :=
  ⟨⟨_, rfl,
      ((request_deadline_is_earliest
        (NewAccountClient { Address := "http://localhost:8080", Timeout := 0, SkipVerify := false })
        (answering { StatusCode := 201, Body := "" })
        (some { deadline := some 5000, done := false }) sampleData "1234" 0
        sampleClient.config).2.1 _ rfl).trans (by decide)⟩,
   ⟨_, rfl,
      ((request_deadline_is_earliest sampleClient (answering { StatusCode := 200, Body := "" })
        (some { deadline := some 5000, done := false }) sampleData "1234" 0
        sampleClient.config).2.2.1 _ rfl).trans (by decide)⟩,
   ⟨_, rfl,
      ((request_deadline_is_earliest sampleClient (answering { StatusCode := 204, Body := "" })
        none sampleData "1234" 0 sampleClient.config).2.2.2 _ rfl).trans (by decide)⟩⟩

/-- C8: a nil context.  Each of `Create`, `Fetch` and `Delete` builds the same
request, makes the same calls and returns the same result for a nil context as
for `context.Background()`, whatever the other arguments and the world are;
and the request built for a nil context carries the deadline `t0 + T` of the
configured timeout. -/
theorem nil_context_is_background (ac : AccountClient) (w : World)
    (accountData : AccountData) (id : String) (version : Int) :
    (createRequest ac w none accountData = createRequest ac w (some Background) accountData
        ∧ Create ac w none accountData = Create ac w (some Background) accountData)
      ∧ (fetchRequest ac w none id = fetchRequest ac w (some Background) id
          ∧ Fetch ac w none id = Fetch ac w (some Background) id)
      ∧ (deleteRequest ac w none id version = deleteRequest ac w (some Background) id version
          ∧ Delete ac w none id version = Delete ac w (some Background) id version)
      ∧ (∀ req, createRequest ac w none accountData = .ok req →
          req.ctx.deadline = some (w.now + ac.config.Timeout))
      ∧ (∀ req, fetchRequest ac w none id = .ok req →
          req.ctx.deadline = some (w.now + ac.config.Timeout))
      ∧ (∀ req, deleteRequest ac w none id version = .ok req →
          req.ctx.deadline = some (w.now + ac.config.Timeout)) := by
  refine ⟨⟨rfl, rfl⟩, ⟨rfl, rfl⟩, ⟨rfl, rfl⟩, ?_, ?_, ?_⟩
  · intro req h
    rw [createRequest_ctx h, opContext_deadline]
    rfl
  · intro req h
    rw [fetchRequest_ctx h, opContext_deadline]
    rfl
  · intro req h
    rw [deleteRequest_ctx h, opContext_deadline]
    rfl

/-- C8 at a concrete input: with a nil context the three requests are built
and carry the deadline 1000 + 5000000000. -/
theorem nil_context_is_background_witness :
    (∃ req, createRequest sampleClient (answering { StatusCode := 201, Body := "" }) none
          sampleData = .ok req
        ∧ req.ctx.deadline = some (1000 + 5000000000))
      ∧ (∃ req, fetchRequest sampleClient (answering { StatusCode := 200, Body := "" }) none
            "1234" = .ok req
          ∧ req.ctx.deadline = some (1000 + 5000000000))
      ∧ (∃ req, deleteRequest sampleClient (answering { StatusCode := 204, Body := "" }) none
            "1234" 0 = .ok req
          ∧ req.ctx.deadline = some (1000 + 5000000000)) :=
  ⟨⟨_, rfl, (nil_context_is_background sampleClient (answering { StatusCode := 201, Body := "" })
      sampleData "1234" 0).2.2.2.1 _ rfl⟩,
   ⟨_, rfl, (nil_context_is_background sampleClient (answering { StatusCode := 200, Body := "" })
      sampleData "1234" 0).2.2.2.2.1 _ rfl⟩,
   ⟨_, rfl, (nil_context_is_background sampleClient (answering { StatusCode := 204, Body := "" })
      sampleData "1234" 0).2.2.2.2.2 _ rfl⟩⟩

end AccountApi
